import Mathlib

/-!
Shallow embedding of the TODO application core (entity model, domain
utilities and stateful service) of the PEC2 repository.

Modelling conventions:
* JS `Date` values are epoch milliseconds (`Int`); an `Invalid Date`
  (whose time is NaN) is the extra constructor `DateVal.invalid`.
  Every comparison involving an invalid date is `false`, as NaN
  comparisons are in JS.
* `new Date()` is modelled by passing the current time `now : Int`
  explicitly to each operation.
* The random UUID generator `generateId` is modelled as a fresh-id
  supply: the service state carries a counter `nextId`, and every
  `new Todo(...)` consumes one fresh `Nat` id.
* `status`/`priority` are kept as raw strings, as they are at runtime
  (the TS enums erase to strings), so the value-level enum checks of
  `validateData` are meaningful.
* `localStorage` is the `storage` field of the service state; a commit
  overwrites it.  The change-listener and per-operation listener are
  modelled by flags (`bound`, `opBound`), an invocation counter and a
  notification log.
-/

instance {ε α : Type} [DecidableEq ε] [DecidableEq α] : DecidableEq (Except ε α) := fun x y =>
  match x, y with
  | .ok a, .ok b =>
    if h : a = b then .isTrue (congrArg Except.ok h)
    else .isFalse (fun hc => h (Except.ok.inj hc))
  | .ok _, .error _ => .isFalse (fun hc => Except.noConfusion hc)
  | .error _, .ok _ => .isFalse (fun hc => Except.noConfusion hc)
  | .error a, .error b =>
    if h : a = b then .isTrue (congrArg Except.error h)
    else .isFalse (fun hc => h (Except.error.inj hc))

/-- A JS `Date` value: either a valid epoch-milliseconds time or an
`Invalid Date` (NaN time value). -/
inductive DateVal
  | valid (t : Int)
  | invalid
deriving DecidableEq, Repr

/-- `d < t` on dates, as JS `<` behaves: `false` whenever `d` is invalid. -/
def DateVal.ltTime : DateVal → Int → Bool
  | .valid x, t => decide (x < t)
  | .invalid, _ => false

/-- JS `String.prototype.trim()`: strips leading and trailing whitespace.
Defined structurally over the character list so that it evaluates in the
kernel (the library `String.trim` recurses on byte positions and does not). -/
def jsTrim (s : String) : String :=
  ⟨((s.data.dropWhile Char.isWhitespace).reverse.dropWhile Char.isWhitespace).reverse⟩

/-- JS `String.prototype.toLowerCase()` (ASCII case folding). -/
def jsToLower (s : String) : String := ⟨s.data.map Char.toLower⟩

/-- `Object.values(TodoPriority)`: the runtime strings of the priority enum. -/
def priorityValues : List String := ["low", "medium", "high", "critical"]

/-- `Object.values(TodoStatus)`: the runtime strings of the status enum. -/
def statusValues : List String := ["pending", "completed", "archived"]

/-- The user-supplied creation payload `ITodoData`.  Optional fields are
`Option`; `status`/`priority` are raw strings as at runtime. -/
structure ITodoData where
  text : String
  description : Option String := none
  complete : Option Bool := none
  status : Option String := none
  priority : Option String := none
  dueDate : Option DateVal := none
  tags : Option (List String) := none
deriving DecidableEq, Repr

/-- Validation outcome `ITodoValidation`. -/
structure ITodoValidation where
  isValid : Bool
  errors : List String
  warnings : List String
deriving DecidableEq, Repr

def msgTextRequired : String := "Text is required and cannot be empty"
def msgTextLong : String := "Text cannot exceed 500 characters"
def msgDescLong : String := "Description cannot exceed 1000 characters"
def msgDueDatePast : String := "Due date is in the past"
def msgPriorityBad : String := "Invalid priority value"
def msgStatusBad : String := "Invalid status value"

/-- Condition of `Todo.validateData`: `!data.text || data.text.trim().length === 0`. -/
def ruleTextMissing (data : ITodoData) : Bool :=
  decide (data.text = "" ∨ (jsTrim data.text).length = 0)

/-- Condition of `Todo.validateData`: `data.text && data.text.trim().length > 500`. -/
def ruleTextLong (data : ITodoData) : Bool :=
  decide (¬ data.text = "" ∧ 500 < (jsTrim data.text).length)

/-- Condition of `Todo.validateData`:
`data.description && data.description.trim().length > 1000`
(an absent or empty description is falsy and skips the check). -/
def ruleDescLong (data : ITodoData) : Bool :=
  match data.description with
  | some d => decide (¬ d = "" ∧ 1000 < (jsTrim d).length)
  | none => false

/-- Condition of `Todo.validateData`: `data.dueDate && data.dueDate < new Date()`
(a `Date` object is always truthy; comparison with an invalid date is false). -/
def ruleDueDatePast (now : Int) (data : ITodoData) : Bool :=
  match data.dueDate with
  | some d => d.ltTime now
  | none => false

/-- Condition of `Todo.validateData`:
`data.priority && !Object.values(TodoPriority).includes(data.priority)`. -/
def rulePriorityBad (data : ITodoData) : Bool :=
  match data.priority with
  | some p => decide (¬ p = "" ∧ p ∉ priorityValues)
  | none => false

/-- Condition of `Todo.validateData`:
`data.status && !Object.values(TodoStatus).includes(data.status)`. -/
def ruleStatusBad (data : ITodoData) : Bool :=
  match data.status with
  | some st => decide (¬ st = "" ∧ st ∉ statusValues)
  | none => false

/-- `Todo.validateData(data)`: accumulates one error per violated rule, in
source order, plus a past-due-date warning; `isValid` iff no errors. -/
def validateData (now : Int) (data : ITodoData) : ITodoValidation :=
  let errors :=
    (if ruleTextMissing data then [msgTextRequired] else [])
    ++ (if ruleTextLong data then [msgTextLong] else [])
    ++ (if ruleDescLong data then [msgDescLong] else [])
    ++ (if rulePriorityBad data then [msgPriorityBad] else [])
    ++ (if ruleStatusBad data then [msgStatusBad] else [])
  let warnings := if ruleDueDatePast now data then [msgDueDatePast] else []
  { isValid := errors.isEmpty, errors := errors, warnings := warnings }

/-- Helper for `jsSetDedup`: keeps elements not seen before, tracking the
set of already-kept elements. -/
def jsSetDedupGo : List String → List String → List String
  | [], _ => []
  | x :: xs, seen =>
    if seen.contains x then jsSetDedupGo xs seen
    else x :: jsSetDedupGo xs (seen ++ [x])

/-- `[...new Set(xs)]`: removes duplicates keeping the first occurrence,
as a JS `Set` built from an array does. -/
def jsSetDedup (l : List String) : List String := jsSetDedupGo l []

/-- `data.description?.trim() || undefined` in the `Todo` constructor. -/
def descNorm : Option String → Option String
  | some d => if jsTrim d = "" then none else some (jsTrim d)
  | none => none

/-- `data.tags ? [...new Set(data.tags.map(tag => tag.trim().toLowerCase()))] : []`. -/
def tagsNorm : Option (List String) → List String
  | some g => jsSetDedup (g.map (fun x => jsToLower (jsTrim x)))
  | none => []

/-- The `Todo` entity: base fields (`id`, `createdAt`, `updatedAt`) plus
content fields, exactly the stored fields of the source class. -/
structure Todo where
  id : Nat
  createdAt : Int
  updatedAt : Int
  text : String
  description : Option String
  complete : Bool
  status : String
  priority : String
  dueDate : Option DateVal
  tags : List String
deriving DecidableEq, Repr

/-- `new Todo(data)`: validates, throwing a plain `Error` carrying all
validation messages when invalid; otherwise generates a fresh id, stamps
both timestamps with the current time, and fills content fields with the
source defaults.  The fresh id comes from the id supply (`freshId`). -/
def Todo.construct (data : ITodoData) (now : Int) (freshId : Nat) :
    Except (List String) Todo :=
  if (validateData now data).isValid then
    .ok { id := freshId
          createdAt := now
          updatedAt := now
          text := jsTrim data.text
          description := descNorm data.description
          complete := data.complete.getD false
          status := data.status.getD
            (if data.complete.getD false then "completed" else "pending")
          priority := data.priority.getD "medium"
          dueDate := data.dueDate
          tags := tagsNorm data.tags }
  else
    .error (validateData now data).errors

/-- Getter `isPending`: `status === TodoStatus.PENDING && !complete`. -/
def Todo.isPending (t : Todo) : Bool :=
  t.status == "pending" && !t.complete

/-- Getter `isOverdue`: `dueDate` present, `new Date() > dueDate`, and not
complete (false for an invalid date, as NaN comparisons are). -/
def Todo.isOverdue (t : Todo) (now : Int) : Bool :=
  match t.dueDate with
  | none => false
  | some d => d.ltTime now && !t.complete

/-- Getter `isCompleted`: `complete && status === TodoStatus.COMPLETED`. -/
def Todo.isCompletedNow (t : Todo) : Bool :=
  t.complete && t.status == "completed"

example : Todo.construct { text := "Buy milk" } 3 0 =
    .ok { id := 0, createdAt := 3, updatedAt := 3, text := "Buy milk",
          description := none, complete := false, status := "pending",
          priority := "medium", dueDate := none, tags := [] } := by decide

example : Todo.construct { text := "  ", priority := some "urgent" } 3 0 =
    .error [msgTextRequired, msgPriorityBad] := by decide

example : jsSetDedup ["a", "b", "a"] = ["a", "b"] := by decide

/-- `TodoErrorCodes` of the source. -/
inductive TodoErrorCode
  | VALIDATION_FAILED
  | TODO_NOT_FOUND
  | STORAGE_ERROR
  | INVALID_DATA
  | PERMISSION_DENIED
  | NETWORK_ERROR
deriving DecidableEq, Repr

/-- An exception escaping a service operation: either a structured
`TodoError` (carrying its code) or the plain `Error` thrown by the `Todo`
constructor (carrying the accumulated validation messages). -/
inductive ServiceError
  | todoError (code : TodoErrorCode)
  | plainError (msgs : List String)
deriving DecidableEq, Repr

/-- `ITodoUpdate = Partial<ITodoContent>`: every content field optional.
`none` means the key is absent from the update object. -/
structure ITodoUpdate where
  text : Option String := none
  description : Option String := none
  complete : Option Bool := none
  status : Option String := none
  priority : Option String := none
  dueDate : Option DateVal := none
  tags : Option (List String) := none
deriving DecidableEq, Repr

/-- The observable state of a `TodoService` instance together with its
environment: the in-memory collection, the durable store contents, the
fresh-id supply, the two listener registrations, and the observable
effect counters/logs. -/
structure ServiceState where
  todos : List Todo
  storage : List Todo
  nextId : Nat
  bound : Bool
  opBound : Bool
  listenerCalls : Nat
  storageWrites : Nat
  notices : List (Todo × String)
deriving DecidableEq, Repr

/-- `_commit(todos)`: replaces the in-memory collection, persists it to the
durable store (one write), and invokes the registered change-listener if
one is bound. -/
def _commit (s : ServiceState) (todos : List Todo) : ServiceState :=
  { s with todos := todos
           storage := todos
           storageWrites := s.storageWrites + 1
           listenerCalls := s.listenerCalls + (if s.bound then 1 else 0) }

/-- `_notifyOperation(todo, operation)`: appends to the operation log when
an operation-listener is bound. -/
def _notifyOperation (s : ServiceState) (t : Todo) (op : String) : ServiceState :=
  if s.opBound then { s with notices := s.notices ++ [(t, op)] } else s

/-- `_validateTodoText(text)`: throws `VALIDATION_FAILED` for a falsy text,
an all-whitespace text, or a trimmed length above `MAX_TEXT_LENGTH`. -/
def _validateTodoText (text : String) : Except TodoErrorCode Unit :=
  if text = "" then .error .VALIDATION_FAILED
  else if (jsTrim text).length = 0 then .error .VALIDATION_FAILED
  else if 500 < (jsTrim text).length then .error .VALIDATION_FAILED
  else .ok ()

/-- `_findTodoById(id)`: `this.todos.find(todo => todo.id === id) || null`. -/
def _findTodoById (todos : List Todo) (id : Nat) : Option Todo :=
  todos.find? (fun t => t.id == id)

/-- `getTodo(id)`. -/
def getTodo (s : ServiceState) (id : Nat) : Option Todo :=
  _findTodoById s.todos id

/-- The object literal `{...todo, ...updates, text: updates.text?.trim() || todo.text}`
passed to `new Todo` inside `updateTodo`, viewed through the fields the
constructor reads. -/
def mergeForUpdate (todo : Todo) (u : ITodoUpdate) : ITodoData :=
  { text := match u.text with
            | some t => if jsTrim t = "" then todo.text else jsTrim t
            | none => todo.text
    description := match u.description with
                   | some d => some d
                   | none => todo.description
    complete := some (match u.complete with
                      | some b => b
                      | none => todo.complete)
    status := some (match u.status with
                    | some st => st
                    | none => todo.status)
    priority := some (match u.priority with
                      | some p => p
                      | none => todo.priority)
    dueDate := match u.dueDate with
               | some d => some d
               | none => todo.dueDate
    tags := some (match u.tags with
                  | some g => g
                  | none => todo.tags) }

/-- `updateTodo(id, updates)`: throws `TODO_NOT_FOUND` for an unknown id,
validates `updates.text` when present, builds a brand-new `Todo` from the
merged data (the constructor draws a fresh id and fresh timestamps),
replaces the entry with that id, commits once and reports `"update"`. -/
def updateTodo (s : ServiceState) (id : Nat) (u : ITodoUpdate) (now : Int) :
    Except ServiceError (ServiceState × Todo) :=
  match _findTodoById s.todos id with
  | none => .error (.todoError .TODO_NOT_FOUND)
  | some todo =>
    match (match u.text with
           | some txt => _validateTodoText txt
           | none => .ok ()) with
    | .error c => .error (.todoError c)
    | .ok _ =>
      match Todo.construct (mergeForUpdate todo u) now s.nextId with
      | .error msgs => .error (.plainError msgs)
      | .ok updatedTodo =>
        let todos2 := s.todos.map (fun t => if t.id == id then updatedTodo else t)
        let s1 := _commit { s with nextId := s.nextId + 1 } todos2
        .ok (_notifyOperation s1 updatedTodo "update", updatedTodo)

/-- `deleteTodo(id)`: returns `false` without any effect when the id is
unknown; otherwise filters it out, commits once and reports `"delete"`. -/
def deleteTodo (s : ServiceState) (id : Nat) : Bool × ServiceState :=
  match _findTodoById s.todos id with
  | none => (false, s)
  | some todo =>
    let todos2 := s.todos.filter (fun t => !(t.id == id))
    (true, _notifyOperation (_commit s todos2) todo "delete")

/-- The update object `{ complete: c, status: c ? COMPLETED : PENDING }`
used by `toggleTodo` and `toggleAll`. -/
def toggleUpd (c : Bool) : ITodoUpdate :=
  { complete := some c
    status := some (if c then "completed" else "pending") }

/-- `toggleTodo(id)`: throws `TODO_NOT_FOUND` for an unknown id, else
delegates to `updateTodo` with complete negated and status synchronised. -/
def toggleTodo (s : ServiceState) (id : Nat) (now : Int) :
    Except ServiceError (ServiceState × Todo) :=
  match _findTodoById s.todos id with
  | none => .error (.todoError .TODO_NOT_FOUND)
  | some todo => updateTodo s id (toggleUpd !todo.complete) now

/-- `deleteMultipleTodos(ids)`: removes every todo whose id occurs in
`ids`, commits exactly once (also when nothing matched), reports
`"delete"` once per removed todo, and returns the number removed. -/
def deleteMultipleTodos (s : ServiceState) (ids : List Nat) : Nat × ServiceState :=
  let initialLength := s.todos.length
  let todosToDelete := s.todos.filter (fun t => ids.contains t.id)
  let todos2 := s.todos.filter (fun t => !(ids.contains t.id))
  let s1 := _commit s todos2
  let s2 := todosToDelete.foldl (fun st t => _notifyOperation st t "delete") s1
  (initialLength - s1.todos.length, s2)

/-- `clearCompleted()`: deletes the ids of all completed todos in one
`deleteMultipleTodos` call. -/
def clearCompleted (s : ServiceState) : Nat × ServiceState :=
  deleteMultipleTodos s ((s.todos.filter (fun t => t.complete)).map (fun t => t.id))

/-- One iteration of the `updateMultipleTodos` loop: apply `updateTodo`,
collecting the result on success and skipping the entry (with a logged
warning) when it throws. -/
def updateManyStep (now : Int) (acc : ServiceState × List Todo)
    (entry : Nat × ITodoUpdate) : ServiceState × List Todo :=
  match updateTodo acc.1 entry.1 entry.2 now with
  | .ok (s2, t) => (s2, acc.2 ++ [t])
  | .error _ => acc

/-- `updateMultipleTodos(updates)`: applies `updateTodo` per entry,
skipping (with a logged warning) entries that throw, and collects the
successfully updated todos. -/
def updateMultipleTodos (s : ServiceState)
    (updates : List (Nat × ITodoUpdate)) (now : Int) : ServiceState × List Todo :=
  updates.foldl (updateManyStep now) (s, [])

/-- `toggleAll(complete)`: one `updateTodo` per current todo, through
`updateMultipleTodos`, each carrying the toggle update object. -/
def toggleAll (s : ServiceState) (complete : Bool) (now : Int) :
    ServiceState × List Todo :=
  updateMultipleTodos s (s.todos.map (fun t => (t.id, toggleUpd complete))) now

/-- `validateTodo(todo)`: false for empty text, a text failing
`_validateTodoText`, or a `dueDate` whose time is NaN.  The `!todo.id`
check of the source can never fire: generated ids are non-empty strings,
which are always truthy. -/
def validateTodo (t : Todo) : Bool :=
  if t.text = "" then false
  else
    match _validateTodoText t.text with
    | .error _ => false
    | .ok _ =>
      match t.dueDate with
      | some .invalid => false
      | _ => true

/-- The serialized per-item record produced by `JSON.stringify` (which
calls `Todo.toJSON`) and read back by `JSON.parse`, viewed through the
fields the `Todo` constructor consumes.  An `Invalid Date` serializes to
JSON `null` (`Date.prototype.toJSON` yields null for a NaN time), and
`null`/absent both reach the constructor as falsy. -/
def exportDateVal : Option DateVal → Option DateVal
  | some (.valid x) => some (.valid x)
  | some .invalid => none
  | none => none

/-- The plain record for one todo inside an export snapshot, as the re-
importing path will see it. -/
def Todo.toImportData (t : Todo) : ITodoData :=
  { text := t.text
    description := t.description
    complete := some t.complete
    status := some t.status
    priority := some t.priority
    dueDate := exportDateVal t.dueDate
    tags := some t.tags }

/-- The export snapshot `{version, timestamp, todos}` of `exportTodos`. -/
structure ExportData where
  version : String
  timestamp : Int
  todos : List ITodoData
deriving DecidableEq, Repr

/-- `exportTodos()`. -/
def exportTodos (s : ServiceState) (now : Int) : ExportData :=
  { version := "1.0", timestamp := now, todos := s.todos.map Todo.toImportData }

/-- A parsed import payload: `malformed` when `JSON.parse` throws,
`badShape` when the parse succeeds but `importData.todos` is missing or
not an array, and `withTodos` otherwise. -/
inductive ImportPayload
  | malformed
  | badShape
  | withTodos (todos : List ITodoData)
deriving DecidableEq, Repr

/-- An export snapshot parses back to a `withTodos` payload. -/
def ExportData.toPayload (e : ExportData) : ImportPayload := .withTodos e.todos

/-- `importData.todos.map((todo) => new Todo(todo))`: constructs each
entry with consecutive fresh ids, aborting at the first constructor
throw, and returns the next unused id. -/
def constructAll (now : Int) : List ITodoData → Nat → Except (List String) (List Todo × Nat)
  | [], nid => .ok ([], nid)
  | d :: ds, nid =>
    match Todo.construct d now nid with
    | .error es => .error es
    | .ok t =>
      match constructAll now ds (nid + 1) with
      | .error es => .error es
      | .ok (ts, nid2) => .ok (t :: ts, nid2)

/-- `importTodos(data)`: `INVALID_DATA` when the payload is unparseable or
lacks a todos array; a constructor throw while mapping the entries is
caught and rethrown as `INVALID_DATA` (it is not a `TodoError`); otherwise
the constructed todos passing `validateTodo` are appended, one commit is
performed, and their number is returned. -/
def importTodos (s : ServiceState) (data : ImportPayload) (now : Int) :
    Except ServiceError (ServiceState × Nat) :=
  match data with
  | .malformed => .error (.todoError .INVALID_DATA)
  | .badShape => .error (.todoError .INVALID_DATA)
  | .withTodos raw =>
    match constructAll now raw s.nextId with
    | .error _ => .error (.todoError .INVALID_DATA)
    | .ok (ts, nid2) =>
      let validTodos := ts.filter validateTodo
      let s1 := _commit { s with nextId := nid2 } (s.todos ++ validTodos)
      .ok (s1, validTodos.length)

/-- `restoreFromBackup(backup)`: clears the in-memory collection (without
committing), then imports the backup; any throw is swallowed and reported
as `false`. -/
def restoreFromBackup (s : ServiceState) (backup : ImportPayload) (now : Int) :
    Bool × ServiceState :=
  match importTodos { s with todos := ([] : List Todo) } backup now with
  | .ok (s2, _) => (true, s2)
  | .error _ => (false, { s with todos := ([] : List Todo) })

/-- The record returned by `TodoModelUtils.getTodoStatistics`, with the
two `Record<_, number>` maps flattened into one field per enumerated
variant. -/
structure TodoStats where
  total : Nat
  completed : Nat
  pending : Nat
  overdue : Nat
  byStatusPending : Nat
  byStatusCompleted : Nat
  byStatusArchived : Nat
  byPriorityLow : Nat
  byPriorityMedium : Nat
  byPriorityHigh : Nat
  byPriorityCritical : Nat
deriving DecidableEq, Repr

/-- One `todos.forEach` step of `getTodoStatistics`.  The dynamic bumps
`byStatus[todo.status]++` / `byPriority[todo.priority]++` touch the
matching enumerated bucket and leave all enumerated buckets unchanged for
an out-of-enum string (in JS such a string would only create a NaN entry
under a fresh key). -/
def statsStep (now : Int) (st : TodoStats) (t : Todo) : TodoStats :=
  { st with
    completed := st.completed + (if t.complete then 1 else 0)
    pending := st.pending + (if t.isPending then 1 else 0)
    overdue := st.overdue + (if t.isOverdue now then 1 else 0)
    byStatusPending := st.byStatusPending + (if t.status == "pending" then 1 else 0)
    byStatusCompleted := st.byStatusCompleted + (if t.status == "completed" then 1 else 0)
    byStatusArchived := st.byStatusArchived + (if t.status == "archived" then 1 else 0)
    byPriorityLow := st.byPriorityLow + (if t.priority == "low" then 1 else 0)
    byPriorityMedium := st.byPriorityMedium + (if t.priority == "medium" then 1 else 0)
    byPriorityHigh := st.byPriorityHigh + (if t.priority == "high" then 1 else 0)
    byPriorityCritical := st.byPriorityCritical + (if t.priority == "critical" then 1 else 0) }

/-- `TodoModelUtils.getTodoStatistics(todos)`: zero-filled counters, total
initialised to the length, then one pass over the collection. -/
def getTodoStatistics (now : Int) (todos : List Todo) : TodoStats :=
  todos.foldl (statsStep now)
    { total := todos.length, completed := 0, pending := 0, overdue := 0,
      byStatusPending := 0, byStatusCompleted := 0, byStatusArchived := 0,
      byPriorityLow := 0, byPriorityMedium := 0, byPriorityHigh := 0,
      byPriorityCritical := 0 }

/-! ### Helper notions and lemmas -/

/-- Well-formedness of a stored `Todo`: the shape every todo produced by
the constructor has (trimmed non-empty bounded text, trimmed bounded
description, enum-or-empty status and priority, normalised tag set). -/
def Todo.wf (t : Todo) : Prop :=
  jsTrim t.text = t.text ∧ t.text ≠ "" ∧ t.text.length ≤ 500 ∧
  descNorm t.description = t.description ∧
  t.description.all (fun d => decide (d.length ≤ 1000)) = true ∧
  (t.status = "" ∨ t.status ∈ statusValues) ∧
  (t.priority = "" ∨ t.priority ∈ priorityValues) ∧
  tagsNorm (some t.tags) = t.tags

/-- What the `Todo` constructor does to the identity and timestamps of a
re-imported record: content preserved, fresh id, fresh timestamps. -/
def refreshTodo (now : Int) (t : Todo) (nid : Nat) : Todo :=
  { t with id := nid, createdAt := now, updatedAt := now }

/-- Re-importing a list of records: consecutive fresh ids. -/
def refreshAll (now : Int) : List Todo → Nat → List Todo
  | [], _ => []
  | t :: ts, nid => refreshTodo now t nid :: refreshAll now ts (nid + 1)

/-- Effect of one toggle-shaped `updateTodo` on the targeted todo:
content preserved except `complete`/`status`, fresh id and timestamps. -/
def refreshTog (flag : Bool) (now : Int) (t : Todo) (nid : Nat) : Todo :=
  { t with id := nid, createdAt := now, updatedAt := now, complete := flag,
           status := if flag then "completed" else "pending" }

/-- Effect of `toggleAll` on the whole collection. -/
def refreshToggled (flag : Bool) (now : Int) : List Todo → Nat → List Todo
  | [], _ => []
  | t :: ts, nid => refreshTog flag now t nid :: refreshToggled flag now ts (nid + 1)

theorem String.length_ne_zero_of_ne_empty {s : String} (h : s ≠ "") : s.length ≠ 0 := by
  intro h0
  apply h
  cases s with
  | mk data =>
    cases data with
    | nil => rfl
    | cons c cs => simp [String.length] at h0

/-- The constructor succeeds exactly on the valid branch, with these fields. -/
theorem construct_eq_ok (data : ITodoData) (now : Int) (nid : Nat)
    (h1 : ruleTextMissing data = false) (h2 : ruleTextLong data = false)
    (h3 : ruleDescLong data = false) (h4 : rulePriorityBad data = false)
    (h5 : ruleStatusBad data = false) :
    Todo.construct data now nid = .ok
      { id := nid, createdAt := now, updatedAt := now, text := jsTrim data.text,
        description := descNorm data.description,
        complete := data.complete.getD false,
        status := data.status.getD
          (if data.complete.getD false then "completed" else "pending"),
        priority := data.priority.getD "medium",
        dueDate := data.dueDate, tags := tagsNorm data.tags } := by
  simp [Todo.construct, validateData, h1, h2, h3, h4, h5]

/-- Whenever the constructor returns a todo, the todo has exactly these fields. -/
theorem construct_ok_fields (data : ITodoData) (now : Int) (nid : Nat) (t : Todo)
    (h : Todo.construct data now nid = .ok t) :
    t = { id := nid, createdAt := now, updatedAt := now, text := jsTrim data.text,
          description := descNorm data.description,
          complete := data.complete.getD false,
          status := data.status.getD
            (if data.complete.getD false then "completed" else "pending"),
          priority := data.priority.getD "medium",
          dueDate := data.dueDate, tags := tagsNorm data.tags } := by
  unfold Todo.construct at h
  by_cases hv : (validateData now data).isValid = true
  · rw [if_pos hv] at h
    exact (Except.ok.inj h).symm
  · rw [if_neg hv] at h
    exact absurd h (by simp)

theorem validateTodo_dueDate_ne_invalid {t : Todo} (h : validateTodo t = true) :
    t.dueDate ≠ some DateVal.invalid := by
  intro hd
  unfold validateTodo at h
  rw [hd] at h
  split at h
  · exact absurd h (by simp)
  · split at h
    · exact absurd h (by simp)
    · exact absurd h (by simp)

theorem validateTodo_refresh (t : Todo) (now : Int) (nid : Nat) :
    validateTodo (refreshTodo now t nid) = validateTodo t := rfl

/-- Re-importing the serialized record of a well-formed stored todo
reconstructs the same content with a fresh id and fresh timestamps. -/
theorem construct_toImportData (t : Todo) (now : Int) (nid : Nat)
    (hwf : t.wf) (hdd : t.dueDate ≠ some DateVal.invalid) :
    Todo.construct t.toImportData now nid = .ok (refreshTodo now t nid) := by
  obtain ⟨w1, w2, w3, w4, w5, w6, w7, w8⟩ := hwf
  have hlen : t.text.length ≠ 0 := String.length_ne_zero_of_ne_empty w2
  have h1 : ruleTextMissing t.toImportData = false := by
    simp [ruleTextMissing, Todo.toImportData, w1, w2, hlen]
  have h2 : ruleTextLong t.toImportData = false := by
    simp [ruleTextLong, Todo.toImportData, w1]
    omega
  have h3 : ruleDescLong t.toImportData = false := by
    simp only [ruleDescLong, Todo.toImportData]
    cases hd : t.description with
    | none => rfl
    | some d =>
      rw [hd] at w4 w5
      simp [descNorm] at w4
      simp at w5
      rcases w4 with ⟨hne, htrim⟩
      simp [htrim]
      omega
  have h4 : rulePriorityBad t.toImportData = false := by
    simp only [rulePriorityBad, Todo.toImportData]
    rcases w7 with hp | hp <;> simp [hp]
  have h5 : ruleStatusBad t.toImportData = false := by
    simp only [ruleStatusBad, Todo.toImportData]
    rcases w6 with hs | hs <;> simp [hs]
  rw [construct_eq_ok _ _ _ h1 h2 h3 h4 h5]
  simp only [Todo.toImportData, refreshTodo]
  congr 1
  simp [w1, w4, w8]
  cases hd : t.dueDate with
  | none => rfl
  | some d =>
    cases d with
    | valid x => rfl
    | invalid => exact absurd hd hdd

theorem mergeForUpdate_toggle (todo : Todo) (c : Bool) :
    mergeForUpdate todo (toggleUpd c) =
      { text := todo.text, description := todo.description,
        complete := some c,
        status := some (if c then "completed" else "pending"),
        priority := some todo.priority, dueDate := todo.dueDate,
        tags := some todo.tags } := rfl

/-- A toggle-shaped `updateTodo` rebuild of a well-formed todo succeeds
and produces the refreshed todo. -/
theorem construct_merge_toggle (todo : Todo) (c : Bool) (now : Int) (nid : Nat)
    (hwf : todo.wf) :
    Todo.construct (mergeForUpdate todo (toggleUpd c)) now nid =
      .ok (refreshTog c now todo nid) := by
  obtain ⟨w1, w2, w3, w4, w5, w6, w7, w8⟩ := hwf
  have hlen : todo.text.length ≠ 0 := String.length_ne_zero_of_ne_empty w2
  rw [mergeForUpdate_toggle]
  have h1 : ruleTextMissing
      { text := todo.text, description := todo.description, complete := some c,
        status := some (if c then "completed" else "pending"),
        priority := some todo.priority, dueDate := todo.dueDate,
        tags := some todo.tags } = false := by
    simp [ruleTextMissing, w1, w2, hlen]
  have h2 : ruleTextLong
      { text := todo.text, description := todo.description, complete := some c,
        status := some (if c then "completed" else "pending"),
        priority := some todo.priority, dueDate := todo.dueDate,
        tags := some todo.tags } = false := by
    simp [ruleTextLong, w1]
    omega
  have h3 : ruleDescLong
      { text := todo.text, description := todo.description, complete := some c,
        status := some (if c then "completed" else "pending"),
        priority := some todo.priority, dueDate := todo.dueDate,
        tags := some todo.tags } = false := by
    simp only [ruleDescLong]
    cases hd : todo.description with
    | none => rfl
    | some d =>
      rw [hd] at w4 w5
      simp [descNorm] at w4
      simp at w5
      rcases w4 with ⟨hne, htrim⟩
      simp [htrim]
      omega
  have h4 : rulePriorityBad
      { text := todo.text, description := todo.description, complete := some c,
        status := some (if c then "completed" else "pending"),
        priority := some todo.priority, dueDate := todo.dueDate,
        tags := some todo.tags } = false := by
    simp only [rulePriorityBad]
    rcases w7 with hp | hp <;> simp [hp]
  have h5 : ruleStatusBad
      { text := todo.text, description := todo.description, complete := some c,
        status := some (if c then "completed" else "pending"),
        priority := some todo.priority, dueDate := todo.dueDate,
        tags := some todo.tags } = false := by
    simp only [ruleStatusBad]
    cases c <;> simp [statusValues]
  rw [construct_eq_ok _ _ _ h1 h2 h3 h4 h5]
  simp only [refreshTog]
  congr 1
  simp [w1, w4, w8]

theorem find?_id_append_cons (pre post : List Todo) (todo : Todo)
    (hpre : ∀ x ∈ pre, x.id ≠ todo.id) :
    _findTodoById (pre ++ todo :: post) todo.id = some todo := by
  induction pre with
  | nil => simp [_findTodoById]
  | cons p ps ih =>
    have hp : (p.id == todo.id) = false := by
      simp
      exact hpre p (by simp)
    simp only [List.cons_append, _findTodoById, List.find?_cons, hp]
    exact ih (fun x hx => hpre x (by simp [hx]))

theorem map_replace_id_of_absent (l : List Todo) (id : Nat) (newT : Todo)
    (h : ∀ x ∈ l, x.id ≠ id) :
    l.map (fun t => if t.id == id then newT else t) = l := by
  induction l with
  | nil => rfl
  | cons x xs ih =>
    have hx : (x.id == id) = false := by
      simp
      exact h x (by simp)
    simp only [List.map_cons, hx, Bool.false_eq_true, if_false]
    rw [ih (fun y hy => h y (by simp [hy]))]

theorem map_replace_id_append_cons (pre post : List Todo) (todo newT : Todo)
    (hpre : ∀ x ∈ pre, x.id ≠ todo.id) (hpost : ∀ x ∈ post, x.id ≠ todo.id) :
    (pre ++ todo :: post).map (fun t => if t.id == todo.id then newT else t)
      = pre ++ newT :: post := by
  rw [List.map_append, map_replace_id_of_absent pre todo.id newT hpre]
  simp only [List.map_cons, beq_self_eq_true, if_true]
  rw [map_replace_id_of_absent post todo.id newT hpost]

/-- One toggle-shaped `updateTodo` targeting a well-formed todo, with all
other ids distinct from the target: the todo is replaced in place by its
refreshed toggled version, with one commit and one update notice. -/
theorem updateTodo_toggle_step (s : ServiceState) (pre post : List Todo) (todo : Todo)
    (flag : Bool) (now : Int)
    (hs : s.todos = pre ++ todo :: post)
    (hwf : todo.wf)
    (hpre : ∀ x ∈ pre, x.id ≠ todo.id)
    (hpost : ∀ x ∈ post, x.id ≠ todo.id) :
    updateTodo s todo.id (toggleUpd flag) now =
      .ok ({ s with
              todos := pre ++ refreshTog flag now todo s.nextId :: post,
              storage := pre ++ refreshTog flag now todo s.nextId :: post,
              nextId := s.nextId + 1,
              storageWrites := s.storageWrites + 1,
              listenerCalls := s.listenerCalls + (if s.bound then 1 else 0),
              notices := s.notices ++
                (if s.opBound then [(refreshTog flag now todo s.nextId, "update")] else []) },
            refreshTog flag now todo s.nextId) := by
  have hfind : _findTodoById s.todos todo.id = some todo := by
    rw [hs]
    exact find?_id_append_cons pre post todo hpre
  have hmap : s.todos.map
      (fun t => if t.id == todo.id then refreshTog flag now todo s.nextId else t)
      = pre ++ refreshTog flag now todo s.nextId :: post := by
    rw [hs]
    exact map_replace_id_append_cons pre post todo _ hpre hpost
  have htext : (toggleUpd flag).text = none := rfl
  simp only [updateTodo, hfind, htext,
    construct_merge_toggle todo flag now s.nextId hwf, hmap, _commit, _notifyOperation]
  cases hb : s.opBound <;> simp_all

/-- The `updateMultipleTodos` loop over toggle updates for a suffix of the
collection: one commit, one listener call and one update notice per item. -/
theorem updateMany_toggle (flag : Bool) (now : Int) :
    ∀ (post pre acc : List Todo) (s : ServiceState),
      s.todos = pre ++ post →
      (∀ x ∈ post, x.wf) →
      (∀ x ∈ post, x.id < s.nextId) →
      (∀ x ∈ pre, ∀ y ∈ post, x.id ≠ y.id) →
      (post.map Todo.id).Nodup →
      List.foldl (updateManyStep now) (s, acc)
          (post.map (fun t => (t.id, toggleUpd flag)))
        = ({ s with
              todos := pre ++ refreshToggled flag now post s.nextId,
              storage := if post.isEmpty then s.storage
                         else pre ++ refreshToggled flag now post s.nextId,
              nextId := s.nextId + post.length,
              storageWrites := s.storageWrites + post.length,
              listenerCalls := s.listenerCalls + (if s.bound then post.length else 0),
              notices := s.notices ++
                (if s.opBound then
                  (refreshToggled flag now post s.nextId).map (fun t => (t, "update"))
                 else []) },
           acc ++ refreshToggled flag now post s.nextId) := by
  intro post
  induction post with
  | nil =>
    intro pre acc s hs _ _ _ _
    rw [List.append_nil] at hs
    subst hs
    simp [refreshToggled]
  | cons t rest ih =>
    intro pre acc s hs hwf hlt hpairs hnodup
    have hpre : ∀ x ∈ pre, x.id ≠ t.id :=
      fun x hx => hpairs x hx t (by simp)
    have hpost : ∀ x ∈ rest, x.id ≠ t.id := by
      intro x hx
      have := hnodup
      simp [List.nodup_cons] at this
      intro hxeq
      exact this.1 x hx hxeq
    have hstep := updateTodo_toggle_step s pre rest t flag now hs (hwf t (by simp))
      hpre hpost
    have hunfold : updateManyStep now (s, acc) (t.id, toggleUpd flag) =
        ({ s with
            todos := pre ++ refreshTog flag now t s.nextId :: rest,
            storage := pre ++ refreshTog flag now t s.nextId :: rest,
            nextId := s.nextId + 1,
            storageWrites := s.storageWrites + 1,
            listenerCalls := s.listenerCalls + (if s.bound then 1 else 0),
            notices := s.notices ++
              (if s.opBound then [(refreshTog flag now t s.nextId, "update")] else []) },
          acc ++ [refreshTog flag now t s.nextId]) := by
      simp only [updateManyStep, hstep]
    simp only [List.map_cons, List.foldl_cons, hunfold]
    rw [ih (pre ++ [refreshTog flag now t s.nextId]) (acc ++ [refreshTog flag now t s.nextId]) _
      (by simp)
      (fun x hx => hwf x (by simp [hx]))
      (by
        intro x hx
        simp only []
        exact Nat.lt_succ_of_lt (hlt x (by simp [hx])))
      (by
        intro x hx y hy
        simp at hx
        rcases hx with hx | hx
        · exact hpairs x hx y (by simp [hy])
        · rw [hx]
          simp only [refreshTog]
          exact fun hc => absurd hc.symm (Nat.ne_of_lt (hlt y (by simp [hy]))))
      (by
        simp [List.nodup_cons] at hnodup
        exact hnodup.2)]
    simp only [Prod.mk.injEq]
    constructor
    · cases hrest : rest with
      | nil => cases hb : s.bound <;> cases hop : s.opBound <;>
          simp [refreshToggled, hb, hop]
      | cons r rs => cases hb : s.bound <;> cases hop : s.opBound <;>
          simp [refreshToggled, hb, hop, List.append_assoc] <;> omega
    · simp [refreshToggled, List.append_assoc]

/-- Mapping the constructor over re-imported records of well-formed valid
todos succeeds and yields the refreshed list. -/
theorem constructAll_toImportData (now : Int) :
    ∀ (l : List Todo) (nid : Nat),
      (∀ t ∈ l, t.wf) → (∀ t ∈ l, validateTodo t = true) →
      constructAll now (l.map Todo.toImportData) nid
        = .ok (refreshAll now l nid, nid + l.length) := by
  intro l
  induction l with
  | nil => intro nid _ _; simp [constructAll, refreshAll]
  | cons t rest ih =>
    intro nid hwf hval
    have h1 := construct_toImportData t now nid (hwf t (by simp))
      (validateTodo_dueDate_ne_invalid (hval t (by simp)))
    simp only [List.map_cons, constructAll, h1,
      ih (nid + 1) (fun x hx => hwf x (by simp [hx])) (fun x hx => hval x (by simp [hx])),
      refreshAll]
    have hn : nid + 1 + rest.length = nid + (t :: rest).length := by simp; omega
    rw [hn]

theorem filter_validateTodo_refreshAll (now : Int) :
    ∀ (l : List Todo) (nid : Nat), (∀ t ∈ l, validateTodo t = true) →
      (refreshAll now l nid).filter validateTodo = refreshAll now l nid := by
  intro l
  induction l with
  | nil => intro nid _; rfl
  | cons t rest ih =>
    intro nid hval
    have ht : validateTodo (refreshTodo now t nid) = true := by
      rw [validateTodo_refresh]
      exact hval t (by simp)
    simp only [refreshAll, List.filter_cons, ht, if_true]
    rw [ih (nid + 1) (fun x hx => hval x (by simp [hx]))]

theorem refreshAll_length (now : Int) :
    ∀ (l : List Todo) (nid : Nat), (refreshAll now l nid).length = l.length := by
  intro l
  induction l with
  | nil => intro nid; rfl
  | cons t rest ih => intro nid; simp [refreshAll, ih]

/-- Folding `_notifyOperation` over a list: appends one notice per element
when an operation-listener is bound, and nothing otherwise. -/
theorem foldl_notify (op : String) :
    ∀ (l : List Todo) (s : ServiceState),
      l.foldl (fun st t => _notifyOperation st t op) s
        = { s with notices := s.notices ++
              (if s.opBound then l.map (fun t => (t, op)) else []) } := by
  intro l
  induction l with
  | nil => intro s; simp
  | cons t rest ih =>
    intro s
    rw [List.foldl_cons]
    cases hop : s.opBound
    · have h1 : _notifyOperation s t op = s := by simp [_notifyOperation, hop]
      rw [h1, ih s]
      simp [hop]
    · have h1 : _notifyOperation s t op = { s with notices := s.notices ++ [(t, op)] } := by
        simp [_notifyOperation, hop]
      rw [h1, ih _]
      simp [hop]

theorem length_filter_add_length_filter_not {α : Type} (p : α → Bool) :
    ∀ l : List α,
      (l.filter p).length + (l.filter (fun a => !(p a))).length = l.length := by
  intro l
  induction l with
  | nil => rfl
  | cons x xs ih =>
    simp only [List.filter_cons]
    cases hc : p x <;> simp [hc] <;> omega

/-- Folding `statsStep` over a list adds one per-predicate count to each
accumulator field and never touches `total`. -/
theorem stats_foldl (now : Int) :
    ∀ (l : List Todo) (acc : TodoStats),
      l.foldl (statsStep now) acc =
        { total := acc.total,
          completed := acc.completed + l.countP (fun t => t.complete),
          pending := acc.pending + l.countP Todo.isPending,
          overdue := acc.overdue + l.countP (fun t => t.isOverdue now),
          byStatusPending := acc.byStatusPending + l.countP (fun t => t.status == "pending"),
          byStatusCompleted := acc.byStatusCompleted + l.countP (fun t => t.status == "completed"),
          byStatusArchived := acc.byStatusArchived + l.countP (fun t => t.status == "archived"),
          byPriorityLow := acc.byPriorityLow + l.countP (fun t => t.priority == "low"),
          byPriorityMedium := acc.byPriorityMedium + l.countP (fun t => t.priority == "medium"),
          byPriorityHigh := acc.byPriorityHigh + l.countP (fun t => t.priority == "high"),
          byPriorityCritical := acc.byPriorityCritical + l.countP (fun t => t.priority == "critical") } := by
  intro l
  induction l with
  | nil => intro acc; simp
  | cons t rest ih =>
    intro acc
    simp only [List.foldl_cons, ih, statsStep, List.countP_cons, TodoStats.mk.injEq]
    repeat' apply And.intro
    all_goals first
      | trivial
      | (split_ifs <;> omega)

instance (t : Todo) : Decidable t.wf := by
  unfold Todo.wf
  infer_instance

/-! ### Concrete fixtures used by counterexamples and witnesses -/

def t0 : Todo :=
  { id := 0, createdAt := 0, updatedAt := 0, text := "Buy milk",
    description := none, complete := false, status := "pending",
    priority := "medium", dueDate := none, tags := [] }

def s0 : ServiceState :=
  { todos := [t0], storage := [t0], nextId := 1, bound := true,
    opBound := true, listenerCalls := 0, storageWrites := 0, notices := [] }

def tArch : Todo := { t0 with status := "archived" }

def sArch : ServiceState := { s0 with todos := [tArch], storage := [tArch] }

def tBank : Todo := { t0 with id := 1, text := "Call bank" }

def sTwo : ServiceState :=
  { s0 with todos := [t0, tBank], storage := [t0, tBank], nextId := 2 }

/-! ### Claim theorems -/

/-- C8: `deleteTodo` on an id absent from the collection returns the
failure indicator `false` and leaves the whole service state untouched:
no collection change, no storage write, no change-listener invocation,
no operation notice. -/
theorem c8_delete_unknown_no_effect (s : ServiceState) (id : Nat)
    (h : _findTodoById s.todos id = none) :
    deleteTodo s id = (false, s) := by
  simp [deleteTodo, h]

theorem c8_delete_unknown_no_effect_witness : deleteTodo s0 99 = (false, s0) :=
  c8_delete_unknown_no_effect s0 99 (by decide)

/-- C9: whenever `restoreFromBackup` reports failure (`false`), the
in-memory collection has already been cleared and is not rolled back: the
resulting state is the pre-restore state with an empty collection, while
the durable `storage` field still holds the last committed collection. -/
theorem c9_restore_failure_leaves_cleared (s : ServiceState)
    (backup : ImportPayload) (now : Int)
    (h : (restoreFromBackup s backup now).1 = false) :
    (restoreFromBackup s backup now).2 = { s with todos := ([] : List Todo) } := by
  unfold restoreFromBackup at h ⊢
  cases himp : importTodos { s with todos := ([] : List Todo) } backup now with
  | ok r =>
    obtain ⟨r1, r2⟩ := r
    rw [himp] at h
    simp at h
  | error e => rfl

theorem c9_restore_failure_leaves_cleared_witness :
    (restoreFromBackup s0 ImportPayload.malformed 0).2 = { s0 with todos := ([] : List Todo) } :=
  c9_restore_failure_leaves_cleared s0 ImportPayload.malformed 0 (by decide)

/-- C10: every `deleteMultipleTodos` call performs exactly one commit
(one storage write, one change-listener invocation when bound) even when
`ids` is empty or matches nothing; it returns the number of todos
actually removed and fires one "delete" notice per removed todo; and
`clearCompleted` therefore also commits exactly once. -/
theorem c10_deleteMultiple_one_commit (s : ServiceState) (ids : List Nat) :
    (deleteMultipleTodos s ids).1
        = (s.todos.filter (fun t => ids.contains t.id)).length
    ∧ (deleteMultipleTodos s ids).2.storageWrites = s.storageWrites + 1
    ∧ (deleteMultipleTodos s ids).2.listenerCalls
        = s.listenerCalls + (if s.bound then 1 else 0)
    ∧ (deleteMultipleTodos s ids).2.todos
        = s.todos.filter (fun t => !(ids.contains t.id))
    ∧ (deleteMultipleTodos s ids).2.notices = s.notices ++
        (if s.opBound then
          (s.todos.filter (fun t => ids.contains t.id)).map (fun t => (t, "delete"))
         else [])
    ∧ (clearCompleted s).2.storageWrites = s.storageWrites + 1
    ∧ (clearCompleted s).2.listenerCalls
        = s.listenerCalls + (if s.bound then 1 else 0) := by
  have key : ∀ ids2 : List Nat,
      deleteMultipleTodos s ids2
        = ((s.todos.filter (fun t => ids2.contains t.id)).length,
           { s with
              todos := s.todos.filter (fun t => !(ids2.contains t.id)),
              storage := s.todos.filter (fun t => !(ids2.contains t.id)),
              storageWrites := s.storageWrites + 1,
              listenerCalls := s.listenerCalls + (if s.bound then 1 else 0),
              notices := s.notices ++
                (if s.opBound then
                  (s.todos.filter (fun t => ids2.contains t.id)).map (fun t => (t, "delete"))
                 else []) }) := by
    intro ids2
    have hlen := length_filter_add_length_filter_not (fun t => ids2.contains t.id) s.todos
    simp only [deleteMultipleTodos, _commit, foldl_notify]
    simp only [Prod.mk.injEq]
    constructor
    · omega
    · trivial
  refine ⟨?_, ?_, ?_, ?_, ?_, ?_, ?_⟩
  · rw [key ids]
  · rw [key ids]
  · rw [key ids]
  · rw [key ids]
  · rw [key ids]
  · unfold clearCompleted
    rw [key ((s.todos.filter (fun t => t.complete)).map (fun t => t.id))]
  · unfold clearCompleted
    rw [key ((s.todos.filter (fun t => t.complete)).map (fun t => t.id))]

/-- C6 counterexample: on a collection holding one archived, incomplete
item, `getTodoStatistics` reports `pending = 0` although
`total - completed = 1`: the pending count is the number of items with
status Pending and not complete, not `total - completed`. -/
theorem c6_stats_archived_pending_counterexample :
    getTodoStatistics 0 [tArch] =
      { total := 1, completed := 0, pending := 0, overdue := 0,
        byStatusPending := 0, byStatusCompleted := 0, byStatusArchived := 1,
        byPriorityLow := 0, byPriorityMedium := 1, byPriorityHigh := 0,
        byPriorityCritical := 0 }
    ∧ (getTodoStatistics 0 [tArch]).pending
        ≠ (getTodoStatistics 0 [tArch]).total - (getTodoStatistics 0 [tArch]).completed := by
  decide

/-- C6 amended: `getTodoStatistics` returns total = length, completed =
count of `complete`, pending = count of `isPending` (status Pending and
not complete; in general not `total - completed`), overdue = count of
`isOverdue`, and one zero-filled counter per enumerated status and
priority variant counting exact matches. -/
theorem c6_stats_amended (now : Int) (todos : List Todo) :
    getTodoStatistics now todos =
      { total := todos.length,
        completed := todos.countP (fun t => t.complete),
        pending := todos.countP Todo.isPending,
        overdue := todos.countP (fun t => t.isOverdue now),
        byStatusPending := todos.countP (fun t => t.status == "pending"),
        byStatusCompleted := todos.countP (fun t => t.status == "completed"),
        byStatusArchived := todos.countP (fun t => t.status == "archived"),
        byPriorityLow := todos.countP (fun t => t.priority == "low"),
        byPriorityMedium := todos.countP (fun t => t.priority == "medium"),
        byPriorityHigh := todos.countP (fun t => t.priority == "high"),
        byPriorityCritical := todos.countP (fun t => t.priority == "critical") } := by
  unfold getTodoStatistics
  rw [stats_foldl]
  simp

def tC4 : Todo :=
  { id := 1, createdAt := 7, updatedAt := 7, text := "Buy milk",
    description := none, complete := true, status := "completed",
    priority := "medium", dueDate := none, tags := [] }

def sC4 : ServiceState :=
  { todos := [tC4], storage := [tC4], nextId := 2, bound := true,
    opBound := true, listenerCalls := 1, storageWrites := 1,
    notices := [(tC4, "update")] }

/-- C4 counterexample: toggling an archived, incomplete item does not
leave it Archived: `toggleTodo` moves it to status Completed. -/
theorem c4_toggle_archived_counterexample :
    toggleTodo sArch 0 7 = .ok (sC4, tC4)
    ∧ tArch.status = "archived"
    ∧ tC4.status = "completed"
    ∧ tC4.status ≠ "archived" := by decide

/-- C4 amended: `toggleTodo` always flips `complete` and always sets the
status to Completed (when completing) or Pending (when un-completing),
regardless of the prior status.  Between Pending/incomplete and
Completed/complete it behaves as the claim states, and it never moves an
item into Archived; but an Archived item does not stay Archived — toggle
moves it out of Archived. -/
theorem c4_toggle_amended (s : ServiceState) (id : Nat) (now : Int)
    (todo : Todo) (s2 : ServiceState) (t : Todo)
    (hfind : _findTodoById s.todos id = some todo)
    (hok : toggleTodo s id now = .ok (s2, t)) :
    t.complete = !todo.complete
    ∧ t.status = (if todo.complete then "pending" else "completed")
    ∧ t.status ≠ "archived" := by
  have htext : (toggleUpd !todo.complete).text = none := rfl
  simp only [toggleTodo, hfind, updateTodo, htext] at hok
  cases hcon : Todo.construct (mergeForUpdate todo (toggleUpd !todo.complete)) now s.nextId with
  | error es =>
    rw [hcon] at hok
    exact absurd hok (by simp)
  | ok u =>
    rw [hcon] at hok
    have hu := construct_ok_fields _ _ _ u hcon
    have ht : t = u := by
      have hpair := Except.ok.inj hok
      exact (congrArg Prod.snd hpair).symm
    subst ht
    rw [hu]
    simp only [mergeForUpdate_toggle]
    refine ⟨by simp, ?_, ?_⟩
    · cases hc : todo.complete <;> simp [hc]
    · cases hc : todo.complete <;> simp [hc]

theorem c4_toggle_amended_witness :
    tC4.complete = !tArch.complete
    ∧ tC4.status = (if tArch.complete then "pending" else "completed")
    ∧ tC4.status ≠ "archived" :=
  c4_toggle_amended sArch 0 7 tArch sC4 tC4 (by decide) (by decide)

/-- C5 counterexample: `toggleAll` over a two-item collection performs
two storage writes and two change-listener invocations — one commit per
item, not one single batched commit. -/
theorem c5_toggleAll_two_commits_counterexample :
    sTwo.todos.length = 2
    ∧ sTwo.storageWrites = 0
    ∧ sTwo.listenerCalls = 0
    ∧ (toggleAll sTwo true 9).1.storageWrites = 2
    ∧ (toggleAll sTwo true 9).1.listenerCalls = 2
    ∧ (toggleAll sTwo true 9).1.storageWrites ≠ sTwo.storageWrites + 1 := by decide

/-- C5 amended: `toggleAll(flag)` applies the toggle semantics to every
item (each ends complete = flag with status synchronised, content
otherwise preserved, id and timestamps regenerated), but through one
`updateTodo` per item: n storage writes, n change-listener invocations
and n update notices for n items — not one single batched commit. -/
theorem c5_toggleAll_amended (s : ServiceState) (flag : Bool) (now : Int)
    (hwf : ∀ t ∈ s.todos, t.wf)
    (hlt : ∀ t ∈ s.todos, t.id < s.nextId)
    (hnodup : (s.todos.map Todo.id).Nodup) :
    toggleAll s flag now =
      ({ s with
          todos := refreshToggled flag now s.todos s.nextId,
          storage := if s.todos.isEmpty then s.storage
                     else refreshToggled flag now s.todos s.nextId,
          nextId := s.nextId + s.todos.length,
          storageWrites := s.storageWrites + s.todos.length,
          listenerCalls := s.listenerCalls + (if s.bound then s.todos.length else 0),
          notices := s.notices ++
            (if s.opBound then
              (refreshToggled flag now s.todos s.nextId).map (fun t => (t, "update"))
             else []) },
       refreshToggled flag now s.todos s.nextId) := by
  unfold toggleAll updateMultipleTodos
  rw [updateMany_toggle flag now s.todos [] [] s rfl hwf hlt (by simp) hnodup]
  simp

theorem c5_toggleAll_amended_witness :
    toggleAll sTwo true 9 =
      ({ sTwo with
          todos := refreshToggled true 9 sTwo.todos sTwo.nextId,
          storage := if sTwo.todos.isEmpty then sTwo.storage
                     else refreshToggled true 9 sTwo.todos sTwo.nextId,
          nextId := sTwo.nextId + sTwo.todos.length,
          storageWrites := sTwo.storageWrites + sTwo.todos.length,
          listenerCalls := sTwo.listenerCalls + (if sTwo.bound then sTwo.todos.length else 0),
          notices := sTwo.notices ++
            (if sTwo.opBound then
              (refreshToggled true 9 sTwo.todos sTwo.nextId).map (fun t => (t, "update"))
             else []) },
       refreshToggled true 9 sTwo.todos sTwo.nextId) :=
  c5_toggleAll_amended sTwo true 9 (by decide) (by decide) (by decide)

/-- C2 counterexample: importing the export of a one-item collection
appends a copy whose content matches but whose `id`, `createdAt` and
`updatedAt` are all freshly generated — the original identity and
timestamps are not preserved by the round-trip. -/
theorem c2_import_export_counterexample :
    importTodos s0 ((exportTodos s0 5).toPayload) 9 =
      .ok ({ s0 with
              todos := [t0, refreshTodo 9 t0 1],
              storage := [t0, refreshTodo 9 t0 1],
              nextId := 2, storageWrites := 1, listenerCalls := 1 }, 1)
    ∧ (refreshTodo 9 t0 1).id ≠ t0.id
    ∧ (refreshTodo 9 t0 1).createdAt ≠ t0.createdAt
    ∧ (refreshTodo 9 t0 1).updatedAt ≠ t0.updatedAt := by decide

/-- C2 amended: `importTodos(exportTodos())` on a collection of
well-formed valid items returns the original count and appends that many
items in one commit; every imported item preserves the original content
fields (`text`, `description`, `complete`, `status`, `priority`,
`dueDate`, `tags`) but carries a freshly generated `id` and fresh
`createdAt`/`updatedAt` (the import path uses the constructor, not
`fromJSON`), and the imported copies are appended to the still-present
originals rather than reproducing the collection. -/
theorem c2_import_export_amended (s : ServiceState) (now1 now2 : Int)
    (hwf : ∀ t ∈ s.todos, t.wf)
    (hval : ∀ t ∈ s.todos, validateTodo t = true)
    (hne : s.todos ≠ []) :
    importTodos s ((exportTodos s now1).toPayload) now2 =
      .ok ({ s with
              todos := s.todos ++ refreshAll now2 s.todos s.nextId,
              storage := s.todos ++ refreshAll now2 s.todos s.nextId,
              nextId := s.nextId + s.todos.length,
              storageWrites := s.storageWrites + 1,
              listenerCalls := s.listenerCalls + (if s.bound then 1 else 0) },
            s.todos.length) := by
  simp only [exportTodos, ExportData.toPayload, importTodos,
    constructAll_toImportData now2 s.todos s.nextId hwf hval,
    filter_validateTodo_refreshAll now2 s.todos s.nextId hval,
    refreshAll_length, _commit]

theorem c2_import_export_amended_witness :
    importTodos s0 ((exportTodos s0 5).toPayload) 9 =
      .ok ({ s0 with
              todos := s0.todos ++ refreshAll 9 s0.todos s0.nextId,
              storage := s0.todos ++ refreshAll 9 s0.todos s0.nextId,
              nextId := s0.nextId + s0.todos.length,
              storageWrites := s0.storageWrites + 1,
              listenerCalls := s0.listenerCalls + (if s0.bound then 1 else 0) },
            s0.todos.length) :=
  c2_import_export_amended s0 5 9 (by decide) (by decide) (by decide)

def dataTaskA : ITodoData := { text := "Task A" }

def dataBadDue : ITodoData := { text := "Task B", dueDate := some DateVal.invalid }

def dataEmptyText : ITodoData := { text := "" }

def tA1 : Todo :=
  { id := 1, createdAt := 0, updatedAt := 0, text := "Task A",
    description := none, complete := false, status := "pending",
    priority := "medium", dueDate := none, tags := [] }

def tB2 : Todo :=
  { id := 2, createdAt := 0, updatedAt := 0, text := "Task B",
    description := none, complete := false, status := "pending",
    priority := "medium", dueDate := some DateVal.invalid, tags := [] }

/-- C3 counterexample: a payload that does carry an items array but whose
first entry is invalid makes `importTodos` throw `INVALID_DATA` and abort
the whole import — the valid second entry is not imported, no count is
returned and nothing is committed, refuting both "fails InvalidData
exactly when the top-level shape lacks an items array" and "silently
drops each invalid one, never aborting". -/
theorem c3_import_aborts_counterexample :
    importTodos s0 (.withTodos [dataEmptyText, dataTaskA]) 0
      = .error (.todoError .INVALID_DATA) := by decide

/-- C3 amended: `importTodos` fails `INVALID_DATA` when the payload is
unparseable, when it lacks a todos array, or when any entry makes the
`Todo` constructor throw (one bad entry aborts the entire import, with no
commit and no state change); entries that construct but fail the
service-level `validateTodo` check (an invalid `dueDate`) are silently
dropped; the remaining ones are appended in one commit and their number
is returned. -/
theorem c3_import_amended (s : ServiceState) (raw raw2 : List ITodoData) (now : Int)
    (ts : List Todo) (nid2 : Nat) (es : List String)
    (hok : constructAll now raw s.nextId = .ok (ts, nid2))
    (hbad : constructAll now raw2 s.nextId = .error es) :
    importTodos s ImportPayload.malformed now
        = .error (.todoError .INVALID_DATA)
    ∧ importTodos s ImportPayload.badShape now
        = .error (.todoError .INVALID_DATA)
    ∧ importTodos s (.withTodos raw2) now
        = .error (.todoError .INVALID_DATA)
    ∧ importTodos s (.withTodos raw) now
        = .ok ({ s with
                  todos := s.todos ++ ts.filter validateTodo,
                  storage := s.todos ++ ts.filter validateTodo,
                  nextId := nid2,
                  storageWrites := s.storageWrites + 1,
                  listenerCalls := s.listenerCalls + (if s.bound then 1 else 0) },
               (ts.filter validateTodo).length) := by
  refine ⟨rfl, rfl, ?_, ?_⟩
  · simp only [importTodos, hbad]
  · simp only [importTodos, hok, _commit]

theorem c3_import_amended_witness :
    importTodos s0 (.withTodos [dataTaskA, dataBadDue]) 0
        = .ok ({ s0 with
                  todos := s0.todos ++ [tA1, tB2].filter validateTodo,
                  storage := s0.todos ++ [tA1, tB2].filter validateTodo,
                  nextId := 3,
                  storageWrites := s0.storageWrites + 1,
                  listenerCalls := s0.listenerCalls + (if s0.bound then 1 else 0) },
               ([tA1, tB2].filter validateTodo).length)
    ∧ importTodos s0 (.withTodos [dataEmptyText]) 0
        = .error (.todoError .INVALID_DATA) := by
  have h := c3_import_amended s0 [dataTaskA, dataBadDue] [dataEmptyText] 0
    [tA1, tB2] 3 [msgTextRequired] (by decide) (by decide)
  exact ⟨h.2.2.2, h.2.2.1⟩

def tC1 : Todo :=
  { id := 1, createdAt := 5, updatedAt := 5, text := "Buy milk",
    description := none, complete := true, status := "pending",
    priority := "medium", dueDate := none, tags := [] }

def sC1 : ServiceState :=
  { todos := [tC1], storage := [tC1], nextId := 2, bound := true,
    opBound := true, listenerCalls := 1, storageWrites := 1,
    notices := [(tC1, "update")] }

/-- C1: evaluation of `updateTodo` at a concrete state.  An accepted
partial update (`{complete := true}` on the stored todo with id 0)
replaces the item by a brand-new `Todo` whose `id` and `createdAt` are
freshly generated by the constructor — they are NOT preserved — while
`updatedAt` is refreshed; afterwards the original id no longer resolves
(`getTodo` of the pre-update id is `none`). -/
theorem c1_updateTodo_regenerates_identity :
    updateTodo s0 0 { complete := some true } 5 = .ok (sC1, tC1)
    ∧ tC1.id ≠ t0.id
    ∧ tC1.createdAt ≠ t0.createdAt
    ∧ t0.updatedAt ≤ tC1.updatedAt
    ∧ getTodo sC1 t0.id = none := by decide

def dataBadC7 : ITodoData := { text := "", priority := some "urgent" }

def dataPastDueC7 : ITodoData := { text := "Ok", dueDate := some (DateVal.valid (-5)) }

/-- C7: `Todo` creation either returns an entity or fails carrying the
accumulated list of every violated rule: creation succeeds exactly when
none of the five validation rules (text required, text length,
description length, priority enumeration, status enumeration) is
violated; whenever it fails, the error list contains each rule message
exactly when that rule is violated — all violations are listed at once,
with no short-circuiting; and a past due date only ever yields the
warning (it does not occur among the failure rules, so creation still
succeeds). -/
theorem c7_create_spec (data : ITodoData) (now : Int) (nid : Nat) :
    ((∃ t, Todo.construct data now nid = Except.ok t) ↔
      (ruleTextMissing data = false ∧ ruleTextLong data = false
        ∧ ruleDescLong data = false ∧ rulePriorityBad data = false
        ∧ ruleStatusBad data = false))
    ∧ (∀ es, Todo.construct data now nid = Except.error es →
        ((msgTextRequired ∈ es ↔ ruleTextMissing data = true)
          ∧ (msgTextLong ∈ es ↔ ruleTextLong data = true)
          ∧ (msgDescLong ∈ es ↔ ruleDescLong data = true)
          ∧ (msgPriorityBad ∈ es ↔ rulePriorityBad data = true)
          ∧ (msgStatusBad ∈ es ↔ ruleStatusBad data = true)))
    ∧ ((validateData now data).warnings ≠ [] ↔ ruleDueDatePast now data = true) := by
  refine ⟨?_, ?_, ?_⟩
  · have hok : (∃ t, Todo.construct data now nid = Except.ok t)
        ↔ (validateData now data).isValid = true := by
      unfold Todo.construct
      by_cases hv : (validateData now data).isValid = true
      · simp [hv]
      · simp [hv]
    rw [hok]
    cases hr1 : ruleTextMissing data <;> cases hr2 : ruleTextLong data <;>
      cases hr3 : ruleDescLong data <;> cases hr4 : rulePriorityBad data <;>
      cases hr5 : ruleStatusBad data <;>
      simp [validateData, hr1, hr2, hr3, hr4, hr5]
  · intro es hes
    have hers : es = (validateData now data).errors := by
      unfold Todo.construct at hes
      by_cases hv : (validateData now data).isValid = true
      · rw [if_pos hv] at hes
        exact absurd hes (by simp)
      · rw [if_neg hv] at hes
        exact (Except.error.inj hes).symm
    subst hers
    cases hr1 : ruleTextMissing data <;> cases hr2 : ruleTextLong data <;>
      cases hr3 : ruleDescLong data <;> cases hr4 : rulePriorityBad data <;>
      cases hr5 : ruleStatusBad data <;>
      simp only [validateData, hr1, hr2, hr3, hr4, hr5] <;> decide
  · cases hw : ruleDueDatePast now data <;> simp [validateData, hw]

theorem c7_create_spec_witness :
    msgTextRequired ∈ [msgTextRequired, msgPriorityBad]
    ∧ msgPriorityBad ∈ [msgTextRequired, msgPriorityBad] := by
  have h := (c7_create_spec dataBadC7 0 0).2.1 [msgTextRequired, msgPriorityBad] (by decide)
  exact ⟨h.1.mpr (by decide), h.2.2.2.1.mpr (by decide)⟩
